import Mathlib

/-!
Verification of the ArchDoc-Toolkit documentation generator
(`archdoc_toolkit/documentation_generator.py`).

The Python module is embedded shallowly: filesystem paths are lists of
components, the filesystem is a finite map from paths to contents plus a
set of existing directories, `open(..., "w")` is modelled as a fallible
write that requires the parent directory to exist, and the current date
(`datetime.date.today()`) is passed explicitly as a parameter.
-/

namespace ArchDoc

/-- A filesystem path, as the list of its components
(`os.path.join(a, b)` on component lists is `++`). -/
abbrev Path := List String

/-- Python's `s.replace(" ", "_")`: every space character becomes an
underscore, all other characters are unchanged. -/
def replaceSpaces (s : String) : String :=
  String.mk (s.data.map fun c => if c = ' ' then '_' else c)

/-- A calendar date, the value of `datetime.date.today()`. -/
structure Date where
  year : Nat
  month : Nat
  day : Nat
deriving DecidableEq

/-- The decimal digit character of `n % 10`. -/
def digitChar (n : Nat) : Char := Char.ofNat (48 + n % 10)

/-- Decimal digit string worker: the fuel bounds the number of digits and
is never exhausted when it starts at least as large as the number. -/
def natDecAux : Nat → Nat → List Char
  | 0, _ => []
  | fuel + 1, n =>
    if n < 10 then [digitChar n]
    else natDecAux fuel (n / 10) ++ [digitChar n]

/-- Decimal digit string of a natural number (most significant first). -/
def natDec (n : Nat) : List Char := natDecAux (n + 1) n

/-- Left-pad a digit string with zeros to the given width
(as the `%Y`, `%m`, `%d` directives do). -/
def padZeros (w : Nat) (l : List Char) : List Char :=
  List.replicate (w - l.length) '0' ++ l

/-- `d.strftime("%Y-%m-%d")` on a `datetime.date`. -/
def pyDateStrftimeYmd (d : Date) : String :=
  String.mk (padZeros 4 (natDec d.year)) ++ "-" ++
  String.mk (padZeros 2 (natDec d.month)) ++ "-" ++
  String.mk (padZeros 2 (natDec d.day))

/-- `d.strftime("%Y-%m-%d %H:%M:%S")` on a `datetime.date`: a `date`
has no time-of-day, so the time directives all render as zero and the
result is the `%Y-%m-%d` part followed by the constant " 00:00:00". -/
def pyDateStrftimeYmdHms (d : Date) : String :=
  pyDateStrftimeYmd d ++ " 00:00:00"

/-- The filesystem errors the module can surface (e.g. `FileNotFoundError`
from `open(..., "w")` when the parent directory does not exist). -/
inductive PyError where
  | fileNotFoundError : Path → PyError
deriving DecidableEq

/-- The filesystem state: the set of existing directories and a finite
map from file paths to their contents. -/
structure FS where
  dirs : List Path
  files : List (Path × String)
deriving DecidableEq

/-- Overwrite (or create) the entry for path `p` in a file map. -/
def setFile : List (Path × String) → Path → String → List (Path × String)
  | [], p, c => [(p, c)]
  | (q, d) :: rest, p, c =>
    if q = p then (p, c) :: rest else (q, d) :: setFile rest p c

/-- Look up the content of path `p` in a file map. -/
def getFile : List (Path × String) → Path → Option String
  | [], _ => none
  | (q, d) :: rest, p => if q = p then some d else getFile rest p

/-- `open(file, "w")` followed by writes and close: replaces the file's
content in full; fails with `FileNotFoundError` when the parent
directory does not exist. -/
def FS.writeFile (fs : FS) (p : Path) (content : String) : Except PyError FS :=
  if p.dropLast ∈ fs.dirs then
    .ok { fs with files := setFile fs.files p content }
  else
    .error (.fileNotFoundError p)

/-- The nonempty ancestors of a path, shortest first (the directories
`os.makedirs` brings into existence). -/
def ancestors (p : Path) : List Path :=
  (List.range p.length).map (fun i => p.take (i + 1))

/-- `os.makedirs(p)`: create `p` and any missing intermediate directory. -/
def FS.makedirs (fs : FS) (p : Path) : FS :=
  { fs with
    dirs := (ancestors p).foldl (fun ds q => if q ∈ ds then ds else ds ++ [q]) fs.dirs }

/-! ## The generators -/

/-- `IntroductionGenerator.__init__`. -/
structure IntroductionGenerator where
  section_name : String
  description : String
  doc_root : Path
deriving DecidableEq

/-- The heading written by `IntroductionGenerator.generate_section`
(line 116 of the source). -/
def introHeadingChunk (section_name : String) : String :=
  "# " ++ section_name ++ "\n\n"

/-- The timestamp line written by `IntroductionGenerator.generate_section`
(line 117). -/
def introTimestampChunk (today : Date) : String :=
  "*Last updated: " ++ pyDateStrftimeYmdHms today ++ "*\n\n"

/-- The fixed boilerplate sentence of the introduction variant (line 118). -/
def introBoilerplateChunk : String :=
  "Provide a comprehsive introduction to the project, including its purpose, key features and overall architecture."

/-- The horizontal rule written by the introduction variant (line 119). -/
def introRuleChunk : String := "\n\n---\n\n"

/-- The full content written by `IntroductionGenerator.generate_section`:
the concatenation of its five `file.write` calls. -/
def introContent (g : IntroductionGenerator) (today : Date) : String :=
  introHeadingChunk g.section_name ++ introTimestampChunk today ++
  introBoilerplateChunk ++ introRuleChunk ++ g.description

/-- The section directory used by `IntroductionGenerator.generate_section`. -/
def IntroductionGenerator.sectionDir (g : IntroductionGenerator) : Path :=
  g.doc_root ++ [replaceSpaces g.section_name]

/-- The section file path used by `IntroductionGenerator.generate_section`. -/
def IntroductionGenerator.sectionFile (g : IntroductionGenerator) : Path :=
  g.sectionDir ++ [replaceSpaces g.section_name ++ ".md"]

/-- `IntroductionGenerator.generate_section`. -/
def IntroductionGenerator.generate_section (g : IntroductionGenerator)
    (today : Date) (fs : FS) : Except PyError FS :=
  fs.writeFile g.sectionFile (introContent g today)

/-- `AbbrAndDefGenerator.__init__` (the two mappings start empty). -/
structure AbbrAndDefGenerator where
  section_name : String
  description : String
  doc_root : Path
  abbreviations : List (String × String)
  defines : List (String × String)
deriving DecidableEq

/-- Python `d[k] = v` on an insertion-ordered dict with unique keys:
update the existing entry in place, else append at the end. -/
def dictSet : List (String × String) → String → String → List (String × String)
  | [], k, v => [(k, v)]
  | (q, w) :: rest, k, v =>
    if q = k then (k, v) :: rest else (q, w) :: dictSet rest k v

/-- Python `d.get(k)` on the same dict model. -/
def dictGet : List (String × String) → String → Option String
  | [], _ => none
  | (q, w) :: rest, k => if q = k then some w else dictGet rest k

/-- `AbbrAndDefGenerator.add_abbreviation`. -/
def AbbrAndDefGenerator.add_abbreviation (g : AbbrAndDefGenerator)
    (name value : String) : AbbrAndDefGenerator :=
  { g with abbreviations := dictSet g.abbreviations name value }

/-- `AbbrAndDefGenerator.add_define`. -/
def AbbrAndDefGenerator.add_define (g : AbbrAndDefGenerator)
    (name value : String) : AbbrAndDefGenerator :=
  { g with defines := dictSet g.defines name value }

/-- The heading written by `AbbrAndDefGenerator.generate_section` (line 184). -/
def abbrHeadingChunk (section_name : String) : String :=
  "# " ++ section_name ++ "\n\n"

/-- The timestamp line written by `AbbrAndDefGenerator.generate_section`
(line 185). -/
def abbrTimestampChunk (today : Date) : String :=
  "*Last updated: " ++ pyDateStrftimeYmdHms today ++ "*\n\n"

/-- The fixed boilerplate sentence of the abbr-and-def variant (line 186). -/
def abbrBoilerplateChunk : String :=
  "Explains basic abbreviations, abbreviations and terms used in this project"

/-- The horizontal rule written by the abbr-and-def variant (line 187). -/
def abbrRuleChunk : String := "\n\n---\n\n"

/-- One bullet of a mapping subsection (lines 194 and 200). -/
def bulletLine (p : String × String) : String :=
  " + **" ++ p.1 ++ "**: " ++ p.2 ++ "\n"

/-- Concatenation of a list of strings, in order. -/
def strConcat : List String → String
  | [] => ""
  | s :: rest => s ++ strConcat rest

/-- A mapping subsection: rendered only when the mapping is nonempty
(lines 190-200), one bullet per entry in insertion order. -/
def mappingChunk (heading : String) (m : List (String × String)) : String :=
  if 0 < m.length then
    "\n## " ++ heading ++ "\n" ++ strConcat (m.map bulletLine)
  else ""

/-- The full content written by `AbbrAndDefGenerator.generate_section`:
the concatenation of all its `file.write` calls. -/
def abbrContent (g : AbbrAndDefGenerator) (today : Date) : String :=
  abbrHeadingChunk g.section_name ++ abbrTimestampChunk today ++
  abbrBoilerplateChunk ++ abbrRuleChunk ++ (g.description ++ "\n") ++
  mappingChunk "Abbreviations" g.abbreviations ++
  mappingChunk "Defines" g.defines

/-- The section directory used by `AbbrAndDefGenerator.generate_section`. -/
def AbbrAndDefGenerator.sectionDir (g : AbbrAndDefGenerator) : Path :=
  g.doc_root ++ [replaceSpaces g.section_name]

/-- The section file path used by `AbbrAndDefGenerator.generate_section`. -/
def AbbrAndDefGenerator.sectionFile (g : AbbrAndDefGenerator) : Path :=
  g.sectionDir ++ [replaceSpaces g.section_name ++ ".md"]

/-- `AbbrAndDefGenerator.generate_section`. -/
def AbbrAndDefGenerator.generate_section (g : AbbrAndDefGenerator)
    (today : Date) (fs : FS) : Except PyError FS :=
  fs.writeFile g.sectionFile (abbrContent g today)

/-- A registered `DocumentationGenerator`: one of the two concrete variants. -/
inductive Generator where
  | introduction : IntroductionGenerator → Generator
  | abbrAndDef : AbbrAndDefGenerator → Generator
deriving DecidableEq

/-- Dynamic dispatch of `generate_section`. -/
def Generator.generate_section : Generator → Date → FS → Except PyError FS
  | .introduction g, today, fs => g.generate_section today fs
  | .abbrAndDef g, today, fs => g.generate_section today fs

/-- The section file path a generator writes. -/
def Generator.sectionFile : Generator → Path
  | .introduction g => g.sectionFile
  | .abbrAndDef g => g.sectionFile

/-- The content a generator writes. -/
def Generator.content : Generator → Date → String
  | .introduction g, today => introContent g today
  | .abbrAndDef g, today => abbrContent g today

/-! ## The manager -/

/-- `DocumentationManager.__init__` (the registry starts empty). -/
structure DocumentationManager where
  project_name : String
  project_description : String
  doc_root : Path
  section_names : List String
  section_generators : List Generator
deriving DecidableEq

/-- One iteration of the section loop of `initialize_project`:
create the section directory unless it already exists. -/
def initStep (root : Path) (acc : FS) (name : String) : FS :=
  let sdir := root ++ [replaceSpaces name]
  if sdir ∈ acc.dirs then acc else acc.makedirs sdir

/-- `DocumentationManager.initialize_project` (named `init_project` here):
ensure `doc_root` exists, then ensure one subdirectory per section name. -/
def DocumentationManager.init_project (m : DocumentationManager) (fs : FS) : FS :=
  let fs1 := if m.doc_root ∈ fs.dirs then fs else fs.makedirs m.doc_root
  m.section_names.foldl (initStep m.doc_root) fs1

/-- One bullet of the table of contents (line 256). -/
def tocBullet (name : String) : String :=
  "- [" ++ name ++ "](./" ++ replaceSpaces name ++ "/" ++
  replaceSpaces name ++ ".md)\n"

/-- The path of the table-of-contents file. -/
def DocumentationManager.tocPath (m : DocumentationManager) : Path :=
  m.doc_root ++ ["ArchDoc.md"]

/-- `DocumentationManager.update_table_of_contents`: accumulate the heading
plus one bullet per section name, then write heading+bullets, rule and
project description to `ArchDoc.md` under `doc_root`. -/
def DocumentationManager.update_table_of_contents (m : DocumentationManager)
    (fs : FS) : Except PyError FS :=
  let toc := m.section_names.foldl (fun acc name => acc ++ tocBullet name)
    "# Table of contents\n\n"
  fs.writeFile m.tocPath (toc ++ "\n---\n\n" ++ m.project_description)

/-- `DocumentationManager.register_section_generator`: append to the registry. -/
def DocumentationManager.register_section_generator (m : DocumentationManager)
    (g : Generator) : DocumentationManager :=
  { m with section_generators := m.section_generators ++ [g] }

/-- The loop of `generate_sections` over a list of generators: run each in
order; a raised error aborts the loop and propagates unchanged. -/
def generateSectionList (today : Date) : List Generator → FS → Except PyError FS
  | [], fs => .ok fs
  | g :: gs, fs =>
    match g.generate_section today fs with
    | .ok fs1 => generateSectionList today gs fs1
    | .error e => .error e

/-- `DocumentationManager.generate_sections`. -/
def DocumentationManager.generate_sections (m : DocumentationManager)
    (today : Date) (fs : FS) : Except PyError FS :=
  generateSectionList today m.section_generators fs

/-! ## Line structure of rendered text -/

/-- Split a character list at newline characters; the result always has
one entry per line, including a final (possibly empty) unterminated line. -/
def linesOf : List Char → List (List Char)
  | [] => [[]]
  | c :: cs =>
    if c = '\n' then [] :: linesOf cs
    else
      match linesOf cs with
      | [] => [[c]]
      | l :: ls => (c :: l) :: ls

/-- The lines of a string. -/
def strLines (s : String) : List (List Char) := linesOf s.data

/-- The characters of one rendered mapping bullet, without its newline. -/
def bulletBody (p : String × String) : List Char :=
  " + **".data ++ p.1.data ++ "**: ".data ++ p.2.data

/-- The lines contributed by one mapping subsection: nothing for an empty
mapping; a blank line, the heading and one bullet line per entry otherwise. -/
def secLines (heading : List Char) (m : List (String × String)) : List (List Char) :=
  if 0 < m.length then [] :: heading :: m.map bulletBody else []

/-! ## Helper lemmas -/

theorem linesOf_ne_nil (cs : List Char) : linesOf cs ≠ [] := by
  induction cs with
  | nil => simp [linesOf]
  | cons c cs ih =>
    simp only [linesOf]
    split
    · simp
    · cases h : linesOf cs with
      | nil => simp
      | cons l ls => simp

theorem linesOf_cons_newline (b : List Char) :
    linesOf ('\n' :: b) = [] :: linesOf b := by
  simp [linesOf]

theorem linesOf_append_newline (a b : List Char) :
    linesOf (a ++ '\n' :: b) = linesOf a ++ linesOf b := by
  induction a with
  | nil => simp [linesOf]
  | cons c a ih =>
    by_cases hc : c = '\n'
    · subst hc
      rw [List.cons_append, linesOf_cons_newline, linesOf_cons_newline, ih,
        List.cons_append]
    · rw [List.cons_append]
      simp only [linesOf, if_neg hc, ih]
      cases h : linesOf a with
      | nil => exact absurd h (linesOf_ne_nil a)
      | cons l ls => simp

theorem linesOf_of_no_newline (a : List Char) (h : '\n' ∉ a) : linesOf a = [a] := by
  induction a with
  | nil => rfl
  | cons c a ih =>
    have hc : c ≠ '\n' := by
      rintro rfl
      exact h (List.mem_cons_self _ _)
    have ha : '\n' ∉ a := fun hm => h (List.mem_cons_of_mem _ hm)
    simp only [linesOf, if_neg hc, ih ha]

theorem linesOf_line_blank (a b : List Char) (h : '\n' ∉ a) :
    linesOf (a ++ '\n' :: '\n' :: b) = a :: [] :: linesOf b := by
  rw [linesOf_append_newline, linesOf_of_no_newline a h, linesOf_cons_newline]
  rfl

theorem linesOf_block {α : Type} (f : α → List Char) (l : List α) (rest : List Char)
    (h : ∀ x ∈ l, '\n' ∉ f x) :
    linesOf ((l.map (fun x => f x ++ ['\n'])).flatten ++ rest) = l.map f ++ linesOf rest := by
  induction l with
  | nil => simp
  | cons x l ih =>
    have hx : '\n' ∉ f x := h x (List.mem_cons_self _ _)
    have hl : ∀ y ∈ l, '\n' ∉ f y := fun y hy => h y (List.mem_cons_of_mem _ hy)
    rw [List.map_cons, List.flatten_cons, List.append_assoc, List.append_assoc,
      List.singleton_append, linesOf_append_newline,
      linesOf_of_no_newline (f x) hx, ih hl, List.map_cons, List.cons_append]
    simp

theorem digitChar_ne_newline (n : Nat) : digitChar n ≠ '\n' := by
  show Char.ofNat (48 + n % 10) ≠ '\n'
  have h : n % 10 < 10 := Nat.mod_lt n (by norm_num)
  generalize n % 10 = k at h ⊢
  interval_cases k <;> decide

theorem natDecAux_ne_newline (fuel n : Nat) : '\n' ∉ natDecAux fuel n := by
  induction fuel generalizing n with
  | zero => simp [natDecAux]
  | succ fuel ih =>
    simp only [natDecAux]
    split
    · intro hm
      exact digitChar_ne_newline n (List.mem_singleton.mp hm).symm
    · intro hm
      rcases List.mem_append.mp hm with hm | hm
      · exact ih (n / 10) hm
      · exact digitChar_ne_newline n (List.mem_singleton.mp hm).symm

theorem natDec_ne_newline (n : Nat) : '\n' ∉ natDec n := natDecAux_ne_newline (n + 1) n

theorem padZeros_ne_newline (w : Nat) (l : List Char) (h : '\n' ∉ l) :
    '\n' ∉ padZeros w l := by
  intro hm
  rcases List.mem_append.mp hm with hm | hm
  · exact absurd (List.eq_of_mem_replicate hm) (by decide)
  · exact h hm

theorem pyDateStrftimeYmdHms_ne_newline (d : Date) :
    '\n' ∉ (pyDateStrftimeYmdHms d).data := by
  simp only [pyDateStrftimeYmdHms, pyDateStrftimeYmd, String.data_append, List.mem_append]
  push_neg
  refine ⟨⟨⟨⟨⟨?_, ?_⟩, ?_⟩, ?_⟩, ?_⟩, ?_⟩ <;>
    first
      | exact padZeros_ne_newline _ _ (natDec_ne_newline _)
      | decide

/-- The characters of the timestamp line, without its trailing newlines. -/
def tsChars (d : Date) : List Char :=
  "*Last updated: ".data ++ (pyDateStrftimeYmdHms d).data ++ ['*']

theorem tsChars_ne_newline (d : Date) : '\n' ∉ tsChars d := by
  intro hm
  rcases List.mem_append.mp hm with hm | hm
  · rcases List.mem_append.mp hm with hm | hm
    · revert hm
      decide
    · exact pyDateStrftimeYmdHms_ne_newline d hm
  · revert hm
    decide


theorem introContent_data (g : IntroductionGenerator) (d : Date) :
    (introContent g d).data =
      ('#' :: ' ' :: g.section_name.data) ++ '\n' :: '\n' ::
      (tsChars d ++ '\n' :: '\n' ::
      (introBoilerplateChunk.data ++ '\n' :: '\n' ::
      (['-', '-', '-'] ++ '\n' :: '\n' :: g.description.data))) := by
  have e1 : ("# " : String).data = ['#', ' '] := rfl
  have e2 : ("\n\n" : String).data = ['\n', '\n'] := rfl
  have e3 : ("*\n\n" : String).data = ['*', '\n', '\n'] := rfl
  have e4 : ("\n\n---\n\n" : String).data = ['\n', '\n', '-', '-', '-', '\n', '\n'] := rfl
  simp only [introContent, introHeadingChunk, introTimestampChunk, introRuleChunk,
    tsChars, String.data_append, e1, e2, e3, e4, List.append_assoc,
    List.cons_append, List.nil_append, List.singleton_append]

theorem introContent_lines (g : IntroductionGenerator) (d : Date)
    (hname : '\n' ∉ g.section_name.data) :
    strLines (introContent g d) =
      ('#' :: ' ' :: g.section_name.data) :: [] :: tsChars d :: [] ::
      introBoilerplateChunk.data :: [] :: ['-', '-', '-'] :: [] ::
      linesOf g.description.data := by
  unfold strLines
  rw [introContent_data]
  rw [linesOf_line_blank _ _ (by simpa using hname)]
  rw [linesOf_line_blank _ _ (tsChars_ne_newline d)]
  rw [linesOf_line_blank _ _ (by decide)]
  rw [linesOf_line_blank _ _ (by decide)]


theorem bulletLine_data (p : String × String) :
    (bulletLine p).data = bulletBody p ++ ['\n'] := by
  have e : ("\n" : String).data = ['\n'] := rfl
  simp only [bulletLine, bulletBody, String.data_append, e, List.append_assoc]

theorem bulletBody_ne_newline (p : String × String)
    (h1 : '\n' ∉ p.1.data) (h2 : '\n' ∉ p.2.data) : '\n' ∉ bulletBody p := by
  intro hm
  simp only [bulletBody, List.mem_append] at hm
  rcases hm with ((hm | hm) | hm) | hm
  · revert hm
    decide
  · exact h1 hm
  · revert hm
    decide
  · exact h2 hm

theorem strConcat_bullets_data (m : List (String × String)) :
    (strConcat (m.map bulletLine)).data =
      (m.map (fun p => bulletBody p ++ ['\n'])).flatten := by
  induction m with
  | nil => rfl
  | cons p ps ih =>
    simp only [List.map_cons, strConcat, String.data_append, ih,
      List.flatten_cons, bulletLine_data]

theorem mappingChunk_lines_cont (heading : String) (m : List (String × String))
    (rest : List Char) (hh : '\n' ∉ heading.data)
    (hm : ∀ p ∈ m, '\n' ∉ p.1.data ∧ '\n' ∉ p.2.data) :
    linesOf ((mappingChunk heading m).data ++ rest) =
      secLines ('#' :: '#' :: ' ' :: heading.data) m ++ linesOf rest := by
  cases m with
  | nil => simp [mappingChunk, secLines]
  | cons p ps =>
    have hdata : (mappingChunk heading (p :: ps)).data ++ rest =
        '\n' :: (('#' :: '#' :: ' ' :: heading.data) ++ '\n' ::
          (((p :: ps).map (fun q => bulletBody q ++ ['\n'])).flatten ++ rest)) := by
      have e1 : ("\n## " : String).data = ['\n', '#', '#', ' '] := rfl
      have e2 : ("\n" : String).data = ['\n'] := rfl
      simp only [mappingChunk, List.length_cons, Nat.zero_lt_succ, if_pos,
        String.data_append, e1, e2, strConcat_bullets_data, List.append_assoc,
        List.cons_append, List.nil_append]
    rw [hdata, linesOf_cons_newline, linesOf_append_newline,
      linesOf_of_no_newline _ (by simpa using hh),
      linesOf_block bulletBody (p :: ps) rest
        (fun q hq => bulletBody_ne_newline q ((hm q hq).1) ((hm q hq).2))]
    simp [secLines]

theorem abbrContent_data (g : AbbrAndDefGenerator) (d : Date) :
    (abbrContent g d).data =
      ('#' :: ' ' :: g.section_name.data) ++ '\n' :: '\n' ::
      (tsChars d ++ '\n' :: '\n' ::
      (abbrBoilerplateChunk.data ++ '\n' :: '\n' ::
      (['-', '-', '-'] ++ '\n' :: '\n' ::
      (g.description.data ++ '\n' ::
      ((mappingChunk "Abbreviations" g.abbreviations).data ++
       (mappingChunk "Defines" g.defines).data))))) := by
  have e1 : ("# " : String).data = ['#', ' '] := rfl
  have e2 : ("\n\n" : String).data = ['\n', '\n'] := rfl
  have e3 : ("*\n\n" : String).data = ['*', '\n', '\n'] := rfl
  have e4 : ("\n\n---\n\n" : String).data = ['\n', '\n', '-', '-', '-', '\n', '\n'] := rfl
  have e5 : ("\n" : String).data = ['\n'] := rfl
  simp only [abbrContent, abbrHeadingChunk, abbrTimestampChunk, abbrRuleChunk,
    tsChars, String.data_append, e1, e2, e3, e4, e5, List.append_assoc,
    List.cons_append, List.nil_append]

theorem abbrContent_lines (g : AbbrAndDefGenerator) (d : Date)
    (hname : '\n' ∉ g.section_name.data)
    (hab : ∀ p ∈ g.abbreviations, '\n' ∉ p.1.data ∧ '\n' ∉ p.2.data)
    (hdf : ∀ p ∈ g.defines, '\n' ∉ p.1.data ∧ '\n' ∉ p.2.data) :
    strLines (abbrContent g d) =
      ('#' :: ' ' :: g.section_name.data) :: [] :: tsChars d :: [] ::
      abbrBoilerplateChunk.data :: [] :: ['-', '-', '-'] :: [] ::
      (linesOf g.description.data ++
       (secLines ("## Abbreviations").data g.abbreviations ++
        (secLines ("## Defines").data g.defines ++ [[]]))) := by
  unfold strLines
  rw [abbrContent_data]
  rw [linesOf_line_blank _ _ (by simpa using hname)]
  rw [linesOf_line_blank _ _ (tsChars_ne_newline d)]
  rw [linesOf_line_blank _ _ (by decide)]
  rw [linesOf_line_blank _ _ (by decide)]
  rw [linesOf_append_newline]
  rw [← List.append_nil ((mappingChunk "Defines" g.defines).data)]
  rw [mappingChunk_lines_cont _ _ _ (by decide) hab]
  rw [mappingChunk_lines_cont _ _ _ (by decide) hdf]
  rfl


theorem getFile_setFile_self (l : List (Path × String)) (p : Path) (c : String) :
    getFile (setFile l p c) p = some c := by
  induction l with
  | nil => simp [setFile, getFile]
  | cons e rest ih =>
    obtain ⟨q, d⟩ := e
    by_cases h : q = p
    · subst h
      simp [setFile, getFile]
    · simp [setFile, getFile, h, ih]

theorem getFile_setFile_other (l : List (Path × String)) (p q : Path) (c : String)
    (h : q ≠ p) : getFile (setFile l p c) q = getFile l q := by
  have hpq : ¬ (p = q) := fun he => h (Eq.symm he)
  induction l with
  | nil => simp [setFile, getFile, hpq]
  | cons e rest ih =>
    obtain ⟨r, d⟩ := e
    by_cases hr : r = p
    · subst hr
      simp [setFile, getFile, hpq]
    · simp only [setFile, if_neg hr, getFile, ih]

theorem foldl_insert_mem_of_mem {ds : List Path} {d : Path} (l : List Path)
    (h : d ∈ ds) :
    d ∈ (l.foldl (fun ds q => if q ∈ ds then ds else ds ++ [q]) ds) := by
  induction l generalizing ds with
  | nil => exact h
  | cons x l ih =>
    rw [List.foldl_cons]
    apply ih
    by_cases hx : x ∈ ds
    · simpa [hx] using h
    · simp only [if_neg hx, List.mem_append]
      exact Or.inl h

theorem foldl_insert_mem_self {ds : List Path} {q : Path} (l : List Path)
    (h : q ∈ l) :
    q ∈ (l.foldl (fun ds r => if r ∈ ds then ds else ds ++ [r]) ds) := by
  induction l generalizing ds with
  | nil => cases h
  | cons x l ih =>
    rw [List.foldl_cons]
    rcases List.mem_cons.mp h with rfl | h
    · apply foldl_insert_mem_of_mem
      by_cases hx : q ∈ ds
      · simp [hx]
      · simp [hx]
    · exact ih h

theorem FS.makedirs_files (fs : FS) (p : Path) : (fs.makedirs p).files = fs.files := rfl

theorem FS.makedirs_dirs_mono (fs : FS) (p d : Path) (h : d ∈ fs.dirs) :
    d ∈ (fs.makedirs p).dirs :=
  foldl_insert_mem_of_mem _ h

theorem self_mem_ancestors (p : Path) (h : p ≠ []) : p ∈ ancestors p := by
  unfold ancestors
  have hp : 0 < p.length := List.length_pos.mpr h
  refine List.mem_map.mpr ⟨p.length - 1, ?_, ?_⟩
  · rw [List.mem_range]
    omega
  · have hl : p.length - 1 + 1 = p.length := by omega
    rw [hl, List.take_length]

theorem FS.makedirs_self_mem (fs : FS) (p : Path) (h : p ≠ []) :
    p ∈ (fs.makedirs p).dirs :=
  foldl_insert_mem_self _ (self_mem_ancestors p h)

theorem FS.makedirs_nil (fs : FS) : fs.makedirs [] = fs := by
  unfold FS.makedirs ancestors
  simp

theorem initStep_files (r : Path) (acc : FS) (n : String) :
    (initStep r acc n).files = acc.files := by
  simp only [initStep]
  split <;> rfl

theorem foldl_initStep_files (r : Path) (l : List String) (acc : FS) :
    (l.foldl (initStep r) acc).files = acc.files := by
  induction l generalizing acc with
  | nil => rfl
  | cons x l ih => rw [List.foldl_cons, ih, initStep_files]

theorem initStep_dirs_mono (r : Path) (acc : FS) (n : String) (d : Path)
    (h : d ∈ acc.dirs) : d ∈ (initStep r acc n).dirs := by
  simp only [initStep]
  split
  · exact h
  · exact FS.makedirs_dirs_mono _ _ _ h

theorem foldl_initStep_dirs_mono (r : Path) (l : List String) (acc : FS) (d : Path)
    (h : d ∈ acc.dirs) : d ∈ (l.foldl (initStep r) acc).dirs := by
  induction l generalizing acc with
  | nil => exact h
  | cons x l ih =>
    rw [List.foldl_cons]
    exact ih _ (initStep_dirs_mono r acc x d h)

theorem initStep_creates (r : Path) (acc : FS) (n : String) :
    r ++ [replaceSpaces n] ∈ (initStep r acc n).dirs := by
  simp only [initStep]
  split
  · assumption
  · exact FS.makedirs_self_mem _ _ (by simp)

theorem foldl_initStep_creates (r : Path) (l : List String) (acc : FS) (n : String)
    (h : n ∈ l) : r ++ [replaceSpaces n] ∈ (l.foldl (initStep r) acc).dirs := by
  induction l generalizing acc with
  | nil => cases h
  | cons x l ih =>
    rw [List.foldl_cons]
    rcases List.mem_cons.mp h with rfl | h
    · exact foldl_initStep_dirs_mono _ _ _ _ (initStep_creates r acc n)
    · exact ih _ h

theorem foldl_initStep_id (r : Path) (l : List String) (acc : FS)
    (h : ∀ n ∈ l, r ++ [replaceSpaces n] ∈ acc.dirs) :
    l.foldl (initStep r) acc = acc := by
  induction l with
  | nil => rfl
  | cons x l ih =>
    rw [List.foldl_cons]
    have hx : initStep r acc x = acc := by
      simp only [initStep]
      exact if_pos (h x (List.mem_cons_self _ _))
    rw [hx]
    exact ih (fun n hn => h n (List.mem_cons_of_mem _ hn))

theorem init_project_files (m : DocumentationManager) (fs : FS) :
    (m.init_project fs).files = fs.files := by
  simp only [DocumentationManager.init_project]
  rw [foldl_initStep_files]
  split
  · rfl
  · rfl

theorem init_project_dirs_mono (m : DocumentationManager) (fs : FS) (d : Path)
    (h : d ∈ fs.dirs) : d ∈ (m.init_project fs).dirs := by
  simp only [DocumentationManager.init_project]
  apply foldl_initStep_dirs_mono
  split
  · exact h
  · exact FS.makedirs_dirs_mono _ _ _ h

theorem init_project_creates (m : DocumentationManager) (fs : FS) (n : String)
    (h : n ∈ m.section_names) :
    m.doc_root ++ [replaceSpaces n] ∈ (m.init_project fs).dirs :=
  foldl_initStep_creates _ _ _ _ h

theorem init_project_root_stage (m : DocumentationManager) (fs : FS) :
    (if m.doc_root ∈ (m.init_project fs).dirs then m.init_project fs
     else (m.init_project fs).makedirs m.doc_root) = m.init_project fs := by
  by_cases hr : m.doc_root = []
  · rw [hr, FS.makedirs_nil]
    split <;> rfl
  · have hmem : m.doc_root ∈ (m.init_project fs).dirs := by
      unfold DocumentationManager.init_project
      apply foldl_initStep_dirs_mono
      split
      · assumption
      · exact FS.makedirs_self_mem _ _ hr
    exact if_pos hmem

theorem init_project_idem (m : DocumentationManager) (fs : FS) :
    m.init_project (m.init_project fs) = m.init_project fs := by
  show m.section_names.foldl (initStep m.doc_root)
      (if m.doc_root ∈ (m.init_project fs).dirs then m.init_project fs
       else (m.init_project fs).makedirs m.doc_root) = m.init_project fs
  rw [init_project_root_stage]
  exact foldl_initStep_id _ _ _ (fun n hn => init_project_creates m fs n hn)


theorem foldl_append_strConcat {α : Type} (f : α → String) (l : List α) (init : String) :
    l.foldl (fun acc x => acc ++ f x) init = init ++ strConcat (l.map f) := by
  induction l generalizing init with
  | nil => simp [strConcat]
  | cons x l ih =>
    rw [List.foldl_cons, ih, List.map_cons]
    show init ++ f x ++ strConcat (List.map f l) = init ++ strConcat (f x :: List.map f l)
    rw [String.append_assoc]
    rfl

/-- The full content written by `update_table_of_contents`. -/
def tocContent (m : DocumentationManager) : String :=
  "# Table of contents\n\n" ++ strConcat (m.section_names.map tocBullet) ++
  "\n---\n\n" ++ m.project_description

theorem update_toc_eq (m : DocumentationManager) (fs : FS) :
    m.update_table_of_contents fs = fs.writeFile m.tocPath (tocContent m) := by
  simp only [DocumentationManager.update_table_of_contents, tocContent,
    foldl_append_strConcat, String.append_assoc]

theorem replaceSpaces_data (s : String) :
    (replaceSpaces s).data = s.data.map (fun c => if c = ' ' then '_' else c) := rfl

theorem replaceSpaces_getElem (s : String) (i : Nat) :
    ((replaceSpaces s).data)[i]? =
      (s.data[i]?).map (fun c => if c = ' ' then '_' else c) := by
  simp [replaceSpaces_data]

theorem replaceSpaces_no_newline (s : String) (h : '\n' ∉ s.data) :
    '\n' ∉ (replaceSpaces s).data := by
  rw [replaceSpaces_data]
  intro hm
  rcases List.mem_map.mp hm with ⟨c, hc, he⟩
  by_cases hsp : c = ' '
  · simp [hsp] at he
  · simp only [if_neg hsp] at he
    exact h (he ▸ hc)

/-- The characters of one table-of-contents bullet, without its newline. -/
def tocBody (name : String) : List Char :=
  "- [".data ++ name.data ++ "](./".data ++ (replaceSpaces name).data ++
  ['/'] ++ (replaceSpaces name).data ++ ".md)".data

theorem tocBullet_data (n : String) :
    (tocBullet n).data = tocBody n ++ ['\n'] := by
  have e1 : ("/" : String).data = ['/'] := rfl
  have e2 : (".md)\n" : String).data = ['.', 'm', 'd', ')', '\n'] := rfl
  have e3 : (".md)" : String).data = ['.', 'm', 'd', ')'] := rfl
  simp only [tocBullet, tocBody, String.data_append, e1, e2, e3,
    List.append_assoc, List.cons_append, List.nil_append]

theorem tocBody_no_newline (n : String) (h : '\n' ∉ n.data) : '\n' ∉ tocBody n := by
  intro hm
  simp only [tocBody, List.mem_append] at hm
  rcases hm with (((((hm | hm) | hm) | hm) | hm) | hm) | hm
  · revert hm
    decide
  · exact h hm
  · revert hm
    decide
  · exact replaceSpaces_no_newline n h hm
  · revert hm
    decide
  · exact replaceSpaces_no_newline n h hm
  · revert hm
    decide

theorem strConcat_tocBullets_data (l : List String) :
    (strConcat (l.map tocBullet)).data =
      (l.map (fun n => tocBody n ++ ['\n'])).flatten := by
  induction l with
  | nil => rfl
  | cons n ns ih =>
    simp only [List.map_cons, strConcat, String.data_append, ih,
      List.flatten_cons, tocBullet_data]

theorem tocContent_lines (m : DocumentationManager)
    (h : ∀ n ∈ m.section_names, '\n' ∉ n.data) :
    strLines (tocContent m) =
      ("# Table of contents").data :: [] ::
      (m.section_names.map tocBody ++
        [] :: ['-', '-', '-'] :: [] :: linesOf m.project_description.data) := by
  unfold strLines
  have hdata : (tocContent m).data =
      ("# Table of contents").data ++ '\n' :: '\n' ::
      ((m.section_names.map (fun n => tocBody n ++ ['\n'])).flatten ++ '\n' ::
       (['-', '-', '-'] ++ '\n' :: '\n' :: m.project_description.data)) := by
    have e1 : ("# Table of contents\n\n" : String).data =
        ("# Table of contents").data ++ ['\n', '\n'] := rfl
    have e2 : ("\n---\n\n" : String).data = ['\n', '-', '-', '-', '\n', '\n'] := rfl
    simp only [tocContent, String.data_append, strConcat_tocBullets_data, e1, e2,
      List.append_assoc, List.cons_append, List.nil_append]
  rw [hdata]
  rw [linesOf_line_blank _ _ (by decide)]
  rw [linesOf_block tocBody _ _ (fun n hn => tocBody_no_newline n (h n hn))]
  rw [linesOf_cons_newline]
  rw [linesOf_line_blank _ _ (by decide)]

/-- Number of occurrences of a line in a list of lines. -/
def countLine (target : List Char) : List (List Char) → Nat
  | [] => 0
  | l :: ls => (if l = target then 1 else 0) + countLine target ls

theorem countLine_append (t : List Char) (a b : List (List Char)) :
    countLine t (a ++ b) = countLine t a + countLine t b := by
  induction a with
  | nil => simp [countLine]
  | cons l ls ih =>
    rw [List.cons_append]
    show (if l = t then 1 else 0) + countLine t (ls ++ b) =
      ((if l = t then 1 else 0) + countLine t ls) + countLine t b
    rw [ih]
    omega

theorem countLine_eq_zero_iff (t : List Char) (l : List (List Char)) :
    countLine t l = 0 ↔ t ∉ l := by
  induction l with
  | nil => simp [countLine]
  | cons x xs ih =>
    by_cases hx : x = t
    · subst hx
      simp [countLine, ih]
    · have hxt : ¬ t = x := fun he => hx (Eq.symm he)
      simp [countLine, if_neg hx, ih, hxt]

theorem countLine_map_zero {α : Type} (t : List Char) (f : α → List Char)
    (l : List α) (h : ∀ x ∈ l, f x ≠ t) : countLine t (l.map f) = 0 := by
  rw [countLine_eq_zero_iff]
  intro hm
  rcases List.mem_map.mp hm with ⟨x, hx, he⟩
  exact h x hx he

theorem countLine_secLines (hdg t : List Char) (m : List (String × String))
    (hb : ∀ p ∈ m, bulletBody p ≠ t) (hnil : ([] : List Char) ≠ t) :
    countLine t (secLines hdg m) =
      if 0 < m.length then (if hdg = t then 1 else 0) else 0 := by
  unfold secLines
  split
  · simp only [countLine, if_neg hnil, countLine_map_zero t bulletBody m hb]
    omega
  · simp [countLine]


instance : DecidableEq (Except PyError FS)
  | .ok a, .ok b =>
    if h : a = b then isTrue (by rw [h]) else isFalse (fun he => h (by cases he; rfl))
  | .ok a, .error e => isFalse (fun he => Except.noConfusion he)
  | .error e, .ok a => isFalse (fun he => Except.noConfusion he)
  | .error e, .error f =>
    if h : e = f then isTrue (by rw [h]) else isFalse (fun he => h (by cases he; rfl))

theorem generateSectionList_append (today : Date) (a b : List Generator) (fs : FS) :
    generateSectionList today (a ++ b) fs =
      match generateSectionList today a fs with
      | .ok fs1 => generateSectionList today b fs1
      | .error e => .error e := by
  induction a generalizing fs with
  | nil => rfl
  | cons g a ih =>
    rw [List.cons_append]
    cases hg : g.generate_section today fs with
    | ok fs1 =>
      have l1 : generateSectionList today (g :: (a ++ b)) fs =
          generateSectionList today (a ++ b) fs1 := by
        simp [generateSectionList, hg]
      have l2 : generateSectionList today (g :: a) fs =
          generateSectionList today a fs1 := by
        simp [generateSectionList, hg]
      rw [l1, ih fs1, l2]
    | error e =>
      have l1 : generateSectionList today (g :: (a ++ b)) fs = .error e := by
        simp [generateSectionList, hg]
      have l2 : generateSectionList today (g :: a) fs = .error e := by
        simp [generateSectionList, hg]
      rw [l1, l2]

/-- Claim C10: `add_abbreviation` changes only the abbreviations mapping and
`add_define` changes only the defines mapping; the section name, the
description, the doc root and the respective other mapping are untouched. -/
theorem add_entry_frame (g : AbbrAndDefGenerator) (k v : String) :
    (g.add_abbreviation k v).defines = g.defines ∧
    (g.add_abbreviation k v).section_name = g.section_name ∧
    (g.add_abbreviation k v).description = g.description ∧
    (g.add_abbreviation k v).doc_root = g.doc_root ∧
    (g.add_abbreviation k v).abbreviations = dictSet g.abbreviations k v ∧
    (g.add_define k v).abbreviations = g.abbreviations ∧
    (g.add_define k v).section_name = g.section_name ∧
    (g.add_define k v).description = g.description ∧
    (g.add_define k v).doc_root = g.doc_root ∧
    (g.add_define k v).defines = dictSet g.defines k v :=
  ⟨rfl, rfl, rfl, rfl, rfl, rfl, rfl, rfl, rfl, rfl⟩

set_option maxRecDepth 16384 in
/-- Claim C7 counterexample: the two variants' boilerplate sentences are different
strings, so at a concrete configuration and date the fifth line of the two
rendered files differs; the scaffolding is not byte-identical in full. -/
theorem scaffolding_counterexample :
    introBoilerplateChunk ≠ abbrBoilerplateChunk ∧
    (strLines (introContent ⟨"Overview", "d", ["docs"]⟩ ⟨2026, 10, 12⟩))[4]? ≠
      (strLines (abbrContent ⟨"Overview", "d", ["docs"], [], []⟩ ⟨2026, 10, 12⟩))[4]? :=
  ⟨by decide, by decide⟩

/-- Claim C7, amended: for equal section names and dates the heading chunk, the
timestamp chunk and the horizontal rule chunk are byte-identical across the
two variants, but the boilerplate sentences differ between the variants. -/
theorem scaffolding_amended (n : String) (d : Date) :
    introHeadingChunk n = abbrHeadingChunk n ∧
    introTimestampChunk d = abbrTimestampChunk d ∧
    introRuleChunk = abbrRuleChunk ∧
    introBoilerplateChunk ≠ abbrBoilerplateChunk :=
  ⟨rfl, rfl, rfl, by decide⟩

/-- Claim C5: `initialize_project` is idempotent: a second run returns exactly the
same filesystem state, no files are touched, and every pre-existing
directory is still present after a run. -/
theorem init_project_idempotent (m : DocumentationManager) (fs : FS) :
    m.init_project (m.init_project fs) = m.init_project fs ∧
    (m.init_project fs).files = fs.files ∧
    ∀ d ∈ fs.dirs, d ∈ (m.init_project fs).dirs :=
  ⟨init_project_idem m fs, init_project_files m fs,
    fun d hd => init_project_dirs_mono m fs d hd⟩

theorem init_project_idempotent_witness :
    (⟨"P", "D", ["docs"], ["A B"], []⟩ : DocumentationManager).init_project
        ((⟨"P", "D", ["docs"], ["A B"], []⟩ : DocumentationManager).init_project
          ⟨[["tmp"]], []⟩) =
      (⟨"P", "D", ["docs"], ["A B"], []⟩ : DocumentationManager).init_project
        ⟨[["tmp"]], []⟩ ∧
    (["tmp"] : Path) ∈ (FS.mk [["tmp"]] []).dirs ∧
    (["tmp"] : Path) ∈
      ((⟨"P", "D", ["docs"], ["A B"], []⟩ : DocumentationManager).init_project
        ⟨[["tmp"]], []⟩).dirs :=
  ⟨(init_project_idempotent ⟨"P", "D", ["docs"], ["A B"], []⟩ ⟨[["tmp"]], []⟩).1,
   by decide,
   (init_project_idempotent ⟨"P", "D", ["docs"], ["A B"], []⟩ ⟨[["tmp"]], []⟩).2.2
     ["tmp"] (by decide)⟩

/-- Claim C6: `generate_sections` runs the registered generators in registration
order; when a generator raises, the error is surfaced unchanged and no
later generator is invoked (the result does not depend on the tail). -/
theorem generate_sections_error_propagation (today : Date)
    (gs1 gs2 : List Generator) (g : Generator) (fs fs1 : FS) (e : PyError)
    (h1 : generateSectionList today gs1 fs = .ok fs1)
    (h2 : g.generate_section today fs1 = .error e) :
    generateSectionList today (gs1 ++ g :: gs2) fs = .error e ∧
    (∀ gs3 : List Generator,
      generateSectionList today (gs1 ++ g :: gs2) fs =
        generateSectionList today (gs1 ++ g :: gs3) fs) ∧
    (∀ m : DocumentationManager, m.section_generators = gs1 ++ g :: gs2 →
      m.generate_sections today fs = .error e) := by
  have key : ∀ gs' : List Generator,
      generateSectionList today (gs1 ++ g :: gs') fs = .error e := by
    intro gs'
    rw [generateSectionList_append, h1]
    simp [generateSectionList, h2]
  refine ⟨key gs2, fun gs3 => by rw [key gs2, key gs3], fun m hm => ?_⟩
  rw [DocumentationManager.generate_sections, hm]
  exact key gs2

theorem generate_sections_error_propagation_witness :
    generateSectionList ⟨2026, 10, 12⟩ [] ⟨[], []⟩ = .ok ⟨[], []⟩ ∧
    (Generator.introduction ⟨"A", "d", ["docs"]⟩).generate_section ⟨2026, 10, 12⟩
        ⟨[], []⟩ =
      .error (.fileNotFoundError ["docs", "A", "A.md"]) ∧
    generateSectionList ⟨2026, 10, 12⟩
        ([] ++ Generator.introduction ⟨"A", "d", ["docs"]⟩ ::
          [Generator.introduction ⟨"B", "d", ["docs"]⟩]) ⟨[], []⟩ =
      .error (.fileNotFoundError ["docs", "A", "A.md"]) :=
  ⟨rfl, by decide,
   (generate_sections_error_propagation ⟨2026, 10, 12⟩ []
      [Generator.introduction ⟨"B", "d", ["docs"]⟩]
      (Generator.introduction ⟨"A", "d", ["docs"]⟩) ⟨[], []⟩ ⟨[], []⟩
      (.fileNotFoundError ["docs", "A", "A.md"]) rfl (by decide)).1⟩


theorem dictGet_dictSet_self (l : List (String × String)) (k v : String) :
    dictGet (dictSet l k v) k = some v := by
  induction l with
  | nil => simp [dictSet, dictGet]
  | cons e rest ih =>
    obtain ⟨q, w⟩ := e
    by_cases h : q = k
    · subst h
      simp [dictSet, dictGet]
    · simp [dictSet, dictGet, h, ih]

theorem dictGet_dictSet_other (l : List (String × String)) (k k' v : String)
    (h : k' ≠ k) : dictGet (dictSet l k v) k' = dictGet l k' := by
  have hkk : ¬ (k = k') := fun he => h (Eq.symm he)
  induction l with
  | nil => simp [dictSet, dictGet, hkk]
  | cons e rest ih =>
    obtain ⟨q, w⟩ := e
    by_cases hq : q = k
    · subst hq
      simp [dictSet, dictGet, hkk]
    · simp only [dictSet, if_neg hq, dictGet, ih]

theorem dictSet_keys (l : List (String × String)) (k v : String) :
    (dictSet l k v).map Prod.fst =
      if k ∈ l.map Prod.fst then l.map Prod.fst else l.map Prod.fst ++ [k] := by
  induction l with
  | nil => simp [dictSet]
  | cons e rest ih =>
    obtain ⟨q, w⟩ := e
    by_cases hq : q = k
    · subst hq
      simp [dictSet, List.map_cons]
    · have hkq : ¬ (k = q) := fun he => hq (Eq.symm he)
      simp only [dictSet, if_neg hq, List.map_cons, ih, List.mem_cons]
      by_cases hk : k ∈ rest.map Prod.fst
      · simp [hk, hkq]
      · simp [hk, hkq]

theorem dictSet_keys_nodup (l : List (String × String)) (k v : String)
    (h : (l.map Prod.fst).Nodup) : ((dictSet l k v).map Prod.fst).Nodup := by
  rw [dictSet_keys]
  split
  · exact h
  · next hk =>
      simp [List.nodup_append, h, hk]

/-- Claim C8: adding an entry under an existing name replaces its value in place
(last write wins), keys stay unique per mapping, lookups of other keys are
unchanged, and the rendered subsection lists the mapping's entries in
insertion order, one bullet each. -/
theorem add_entry_last_write_wins (g : AbbrAndDefGenerator) (k v k' : String)
    (hA : (g.abbreviations.map Prod.fst).Nodup)
    (hD : (g.defines.map Prod.fst).Nodup) :
    dictGet (g.add_abbreviation k v).abbreviations k = some v ∧
    dictGet (g.add_define k v).defines k = some v ∧
    ((g.add_abbreviation k v).abbreviations.map Prod.fst =
      if k ∈ g.abbreviations.map Prod.fst then g.abbreviations.map Prod.fst
      else g.abbreviations.map Prod.fst ++ [k]) ∧
    ((g.add_define k v).defines.map Prod.fst =
      if k ∈ g.defines.map Prod.fst then g.defines.map Prod.fst
      else g.defines.map Prod.fst ++ [k]) ∧
    ((g.add_abbreviation k v).abbreviations.map Prod.fst).Nodup ∧
    ((g.add_define k v).defines.map Prod.fst).Nodup ∧
    (k' ≠ k →
      dictGet (g.add_abbreviation k v).abbreviations k' =
        dictGet g.abbreviations k' ∧
      dictGet (g.add_define k v).defines k' = dictGet g.defines k') ∧
    (∀ m : List (String × String),
      (∀ p ∈ m, '\n' ∉ p.1.data ∧ '\n' ∉ p.2.data) →
      linesOf ((mappingChunk "Abbreviations" m).data) =
        secLines ("## Abbreviations").data m ++ [[]]) := by
  refine ⟨dictGet_dictSet_self _ _ _, dictGet_dictSet_self _ _ _,
    dictSet_keys _ _ _, dictSet_keys _ _ _,
    dictSet_keys_nodup _ _ _ hA, dictSet_keys_nodup _ _ _ hD,
    fun hk => ⟨dictGet_dictSet_other _ _ _ _ hk, dictGet_dictSet_other _ _ _ _ hk⟩,
    fun m hclean => ?_⟩
  have hc := mappingChunk_lines_cont "Abbreviations" m [] (by decide) hclean
  rw [List.append_nil] at hc
  rw [hc]
  rfl

theorem add_entry_last_write_wins_witness :
    ((([("KISS", "old")] : List (String × String)).map Prod.fst).Nodup ∧
      (([] : List (String × String)).map Prod.fst).Nodup) ∧
    dictGet ((AbbrAndDefGenerator.mk "A" "d" ["docs"] [("KISS", "old")]
        []).add_abbreviation "KISS" "Keep It Simple, Stupid").abbreviations
      "KISS" = some "Keep It Simple, Stupid" :=
  ⟨⟨by decide, by decide⟩,
   (add_entry_last_write_wins ⟨"A", "d", ["docs"], [("KISS", "old")], []⟩
      "KISS" "Keep It Simple, Stupid" "other" (by decide) (by decide)).1⟩

set_option maxRecDepth 32768 in
/-- Claim C2 counterexample: at 2026-10-12 the timestamp chunk carries the fixed
"00:00:00" time that `date.strftime` renders for the time directives, and
the claimed bare-date line "*Last updated: 2026-10-12*" occurs in neither
variant's rendered content. -/
theorem timestamp_line_counterexample :
    introTimestampChunk ⟨2026, 10, 12⟩ =
      "*Last updated: 2026-10-12 00:00:00*\n\n" ∧
    introTimestampChunk ⟨2026, 10, 12⟩ ≠ "*Last updated: 2026-10-12*\n\n" ∧
    abbrTimestampChunk ⟨2026, 10, 12⟩ =
      "*Last updated: 2026-10-12 00:00:00*\n\n" ∧
    ¬ (("*Last updated: 2026-10-12*").data <:+:
        (introContent ⟨"Introduction", "hello", ["docs"]⟩ ⟨2026, 10, 12⟩).data) ∧
    ¬ (("*Last updated: 2026-10-12*").data <:+:
        (abbrContent ⟨"Defs", "d", ["docs"], [("KISS", "Keep It Simple, Stupid")],
          [("CMake", "Crossplatform build system")]⟩ ⟨2026, 10, 12⟩).data) :=
  ⟨by decide, by decide, by decide, by decide, by decide⟩

/-- Claim C2, amended: each variant renders, as the third line of the file and on
a line of its own, a timestamp line of the exact form
"*Last updated: <YYYY-MM-DD> 00:00:00*" holding the current date: the
`%Y-%m-%d` rendering of the date followed by the literal " 00:00:00". -/
theorem timestamp_line_amended (g1 : IntroductionGenerator)
    (g2 : AbbrAndDefGenerator) (d : Date)
    (h1 : '\n' ∉ g1.section_name.data)
    (h2 : '\n' ∉ g2.section_name.data)
    (hab : ∀ p ∈ g2.abbreviations, '\n' ∉ p.1.data ∧ '\n' ∉ p.2.data)
    (hdf : ∀ p ∈ g2.defines, '\n' ∉ p.1.data ∧ '\n' ∉ p.2.data) :
    (strLines (introContent g1 d))[2]? = some (tsChars d) ∧
    (strLines (abbrContent g2 d))[2]? = some (tsChars d) ∧
    tsChars d = ("*Last updated: ").data ++ (pyDateStrftimeYmd d).data ++
      (" 00:00:00*").data ∧
    '\n' ∉ tsChars d := by
  refine ⟨?_, ?_, ?_, tsChars_ne_newline d⟩
  · rw [introContent_lines g1 d h1]
    rfl
  · rw [abbrContent_lines g2 d h2 hab hdf]
    rfl
  · have e : (" 00:00:00*" : String).data = (" 00:00:00").data ++ ['*'] := rfl
    simp only [tsChars, pyDateStrftimeYmdHms, String.data_append, e,
      List.append_assoc, List.cons_append, List.nil_append]

theorem timestamp_line_amended_witness :
    (strLines (introContent ⟨"Introduction", "hello", ["docs"]⟩
        ⟨2026, 10, 12⟩))[2]? = some (tsChars ⟨2026, 10, 12⟩) ∧
    tsChars ⟨2026, 10, 12⟩ = ("*Last updated: 2026-10-12 00:00:00*").data :=
  ⟨(timestamp_line_amended ⟨"Introduction", "hello", ["docs"]⟩
      ⟨"A", "d", ["docs"], [], []⟩ ⟨2026, 10, 12⟩ (by decide) (by decide)
      (by decide) (by decide)).1,
   by decide⟩

/-- Claim C4: the directory and file names are derived from the section name by
replacing every space character with an underscore and changing nothing
else (character-by-character), the section file is `<normalized>.md` inside
the same-named subdirectory of the doc root, and `initialize_project`
creates exactly these normalized directories. -/
theorem section_path_normalization (s : String) (gI : IntroductionGenerator)
    (gA : AbbrAndDefGenerator) (m : DocumentationManager) (fs : FS) :
    ((replaceSpaces s).data.length = s.data.length ∧
     (∀ i : Nat, ((replaceSpaces s).data)[i]? =
       (s.data[i]?).map (fun c => if c = ' ' then '_' else c))) ∧
    gI.sectionFile = gI.doc_root ++
      [replaceSpaces gI.section_name, replaceSpaces gI.section_name ++ ".md"] ∧
    gA.sectionFile = gA.doc_root ++
      [replaceSpaces gA.section_name, replaceSpaces gA.section_name ++ ".md"] ∧
    (∀ n ∈ m.section_names,
      m.doc_root ++ [replaceSpaces n] ∈ (m.init_project fs).dirs) := by
  refine ⟨⟨by simp [replaceSpaces_data], fun i => replaceSpaces_getElem s i⟩,
    ?_, ?_, fun n hn => init_project_creates m fs n hn⟩
  · simp [IntroductionGenerator.sectionFile, IntroductionGenerator.sectionDir,
      List.append_assoc]
  · simp [AbbrAndDefGenerator.sectionFile, AbbrAndDefGenerator.sectionDir,
      List.append_assoc]

theorem section_path_normalization_witness :
    replaceSpaces "Component Diagrams" = "Component_Diagrams" ∧
    (["out"] ++ [replaceSpaces "Component Diagrams"] : Path) ∈
      ((⟨"P", "D", ["out"], ["Component Diagrams"], []⟩ :
        DocumentationManager).init_project ⟨[], []⟩).dirs :=
  ⟨by decide,
   (section_path_normalization "x" ⟨"a", "b", []⟩ ⟨"a", "b", [], [], []⟩
      ⟨"P", "D", ["out"], ["Component Diagrams"], []⟩ ⟨[], []⟩).2.2.2
     "Component Diagrams" (by decide)⟩

theorem writeFile_ok_inv (fs fs' : FS) (p : Path) (c : String)
    (h : fs.writeFile p c = .ok fs') :
    fs'.files = setFile fs.files p c ∧ fs'.dirs = fs.dirs := by
  unfold FS.writeFile at h
  split at h
  · cases h
    exact ⟨rfl, rfl⟩
  · cases h

theorem generate_section_eq (g : Generator) (today : Date) (fs : FS) :
    g.generate_section today fs =
      fs.writeFile g.sectionFile (g.content today) := by
  cases g <;> rfl

/-- Claim C9: generating the same section twice leaves exactly the second render in
the section file — no byte of the first render survives — and touches no
other file and no directory. -/
theorem generate_section_overwrites (today1 today2 : Date) (g1 g2 : Generator)
    (fs fs1 fs2 : FS) (hpath : g2.sectionFile = g1.sectionFile)
    (h1 : g1.generate_section today1 fs = .ok fs1)
    (h2 : g2.generate_section today2 fs1 = .ok fs2) :
    getFile fs2.files g2.sectionFile = some (g2.content today2) ∧
    (∀ p : Path, p ≠ g2.sectionFile →
      getFile fs2.files p = getFile fs.files p) ∧
    fs2.dirs = fs.dirs := by
  rw [generate_section_eq] at h1 h2
  obtain ⟨hf1, hd1⟩ := writeFile_ok_inv _ _ _ _ h1
  obtain ⟨hf2, hd2⟩ := writeFile_ok_inv _ _ _ _ h2
  refine ⟨?_, ?_, by rw [hd2, hd1]⟩
  · rw [hf2, getFile_setFile_self]
  · intro p hp
    rw [hf2, getFile_setFile_other _ _ _ _ hp, hf1,
      getFile_setFile_other _ _ _ _ (by rw [← hpath]; exact hp)]

set_option maxRecDepth 65536 in
theorem generate_section_overwrites_witness :
    (Generator.abbrAndDef ⟨"A", "a much longer first description",
        ["docs"], [("KISS", "Keep It Simple, Stupid")], []⟩).generate_section
        ⟨2026, 10, 12⟩ ⟨[["docs"], ["docs", "A"]], []⟩ =
      .ok ⟨[["docs"], ["docs", "A"]],
        [(["docs", "A", "A.md"],
          abbrContent ⟨"A", "a much longer first description", ["docs"],
            [("KISS", "Keep It Simple, Stupid")], []⟩ ⟨2026, 10, 12⟩)]⟩ ∧
    (Generator.abbrAndDef ⟨"A", "s", ["docs"], [], []⟩).generate_section
        ⟨2026, 10, 13⟩ ⟨[["docs"], ["docs", "A"]],
          [(["docs", "A", "A.md"],
            abbrContent ⟨"A", "a much longer first description", ["docs"],
              [("KISS", "Keep It Simple, Stupid")], []⟩ ⟨2026, 10, 12⟩)]⟩ =
      .ok ⟨[["docs"], ["docs", "A"]],
        [(["docs", "A", "A.md"],
          abbrContent ⟨"A", "s", ["docs"], [], []⟩ ⟨2026, 10, 13⟩)]⟩ ∧
    getFile [(["docs", "A", "A.md"],
        abbrContent ⟨"A", "s", ["docs"], [], []⟩ ⟨2026, 10, 13⟩)]
      (Generator.abbrAndDef ⟨"A", "s", ["docs"], [], []⟩).sectionFile =
      some ((Generator.abbrAndDef ⟨"A", "s", ["docs"], [], []⟩).content
        ⟨2026, 10, 13⟩) :=
  ⟨by decide, by decide,
   (generate_section_overwrites ⟨2026, 10, 12⟩ ⟨2026, 10, 13⟩
      (Generator.abbrAndDef ⟨"A", "a much longer first description",
        ["docs"], [("KISS", "Keep It Simple, Stupid")], []⟩)
      (Generator.abbrAndDef ⟨"A", "s", ["docs"], [], []⟩)
      ⟨[["docs"], ["docs", "A"]], []⟩
      ⟨[["docs"], ["docs", "A"]],
        [(["docs", "A", "A.md"],
          abbrContent ⟨"A", "a much longer first description", ["docs"],
            [("KISS", "Keep It Simple, Stupid")], []⟩ ⟨2026, 10, 12⟩)]⟩
      ⟨[["docs"], ["docs", "A"]],
        [(["docs", "A", "A.md"],
          abbrContent ⟨"A", "s", ["docs"], [], []⟩ ⟨2026, 10, 13⟩)]⟩
      rfl (by decide) (by decide)).1⟩


theorem dropLast_append_singleton (l : Path) (x : String) :
    (l ++ [x]).dropLast = l := by
  simp

/-- Claim C1: `update_table_of_contents` rewrites `ArchDoc.md` directly under the
doc root in full: a top-level heading, one bullet per section name in list
order linking to `./<normalized>/<normalized>.md`, a horizontal rule, then
the project description verbatim; the new content does not depend on any
previously stored file content. -/
theorem update_table_of_contents_spec (m : DocumentationManager) (fs : FS)
    (hdir : m.doc_root ∈ fs.dirs)
    (hnames : ∀ n ∈ m.section_names, '\n' ∉ n.data) :
    m.update_table_of_contents fs =
      .ok ⟨fs.dirs,
        setFile fs.files (m.doc_root ++ ["ArchDoc.md"]) (tocContent m)⟩ ∧
    tocContent m = "# Table of contents\n\n" ++
      strConcat (m.section_names.map tocBullet) ++ "\n---\n\n" ++
      m.project_description ∧
    (∀ n : String, tocBullet n = "- [" ++ n ++ "](./" ++ replaceSpaces n ++
      "/" ++ replaceSpaces n ++ ".md)\n") ∧
    strLines (tocContent m) =
      ("# Table of contents").data :: [] ::
      (m.section_names.map tocBody ++
        [] :: ['-', '-', '-'] :: [] :: linesOf m.project_description.data) ∧
    getFile (setFile fs.files (m.doc_root ++ ["ArchDoc.md"]) (tocContent m))
        (m.doc_root ++ ["ArchDoc.md"]) = some (tocContent m) ∧
    (∀ p : Path, p ≠ m.doc_root ++ ["ArchDoc.md"] →
      getFile (setFile fs.files (m.doc_root ++ ["ArchDoc.md"]) (tocContent m))
          p = getFile fs.files p) := by
  refine ⟨?_, rfl, fun n => rfl, tocContent_lines m hnames,
    getFile_setFile_self _ _ _, fun p hp => getFile_setFile_other _ _ _ _ hp⟩
  rw [update_toc_eq]
  unfold FS.writeFile DocumentationManager.tocPath
  rw [if_pos (by rw [dropLast_append_singleton]; exact hdir)]

theorem update_table_of_contents_spec_witness :
    ((["docs"] : Path) ∈ (FS.mk [["docs"]] []).dirs) ∧
    (⟨"P", "Desc", ["docs"], ["A B"], []⟩ :
        DocumentationManager).update_table_of_contents ⟨[["docs"]], []⟩ =
      .ok ⟨[["docs"]],
        setFile [] (["docs"] ++ ["ArchDoc.md"])
          (tocContent ⟨"P", "Desc", ["docs"], ["A B"], []⟩)⟩ :=
  ⟨by decide,
   (update_table_of_contents_spec ⟨"P", "Desc", ["docs"], ["A B"], []⟩
      ⟨[["docs"]], []⟩ (by decide) (by decide)).1⟩

theorem ne_of_first (a b : List Char) (c1 c2 : Char) (h1 : a.head? = some c1)
    (h2 : b.head? = some c2) (hne : c1 ≠ c2) : a ≠ b := by
  intro he
  rw [he, h2] at h1
  exact hne (Option.some.inj h1).symm

theorem ne_of_second (a b : List Char) (c1 c2 : Char)
    (h1 : a.tail.head? = some c1) (h2 : b.tail.head? = some c2)
    (hne : c1 ≠ c2) : a ≠ b := by
  intro he
  rw [he, h2] at h1
  exact hne (Option.some.inj h1).symm

theorem countLine_cons_ne (t x : List Char) (xs : List (List Char))
    (h : x ≠ t) : countLine t (x :: xs) = countLine t xs := by
  simp [countLine, h]

theorem countLine_secLines_self (hdg : List Char) (m : List (String × String))
    (hb : ∀ p ∈ m, bulletBody p ≠ hdg) (hnil : ([] : List Char) ≠ hdg) :
    countLine hdg (secLines hdg m) = if 0 < m.length then 1 else 0 := by
  rw [countLine_secLines hdg hdg m hb hnil]
  simp

theorem countLine_secLines_other (hdg t : List Char) (m : List (String × String))
    (hb : ∀ p ∈ m, bulletBody p ≠ t) (hnil : ([] : List Char) ≠ t)
    (hne : hdg ≠ t) : countLine t (secLines hdg m) = 0 := by
  rw [countLine_secLines hdg t m hb hnil]
  simp [hne]

/-- Claim C3: with both mappings empty the rendered file contains no
"## Abbreviations" and no "## Defines" line at all; a nonempty mapping
contributes exactly one corresponding heading line followed by one bullet
line " + **<name>**: <value>" per entry in insertion order, and the
Abbreviations subsection precedes the Defines subsection. -/
theorem abbr_def_subsections (g : AbbrAndDefGenerator) (d : Date)
    (hname : '\n' ∉ g.section_name.data)
    (hab : ∀ p ∈ g.abbreviations, '\n' ∉ p.1.data ∧ '\n' ∉ p.2.data)
    (hdf : ∀ p ∈ g.defines, '\n' ∉ p.1.data ∧ '\n' ∉ p.2.data)
    (hdA : ("## Abbreviations").data ∉ linesOf g.description.data)
    (hdD : ("## Defines").data ∉ linesOf g.description.data) :
    strLines (abbrContent g d) =
      ('#' :: ' ' :: g.section_name.data) :: [] :: tsChars d :: [] ::
      abbrBoilerplateChunk.data :: [] :: ['-', '-', '-'] :: [] ::
      (linesOf g.description.data ++
       (secLines ("## Abbreviations").data g.abbreviations ++
        (secLines ("## Defines").data g.defines ++ [[]]))) ∧
    countLine ("## Abbreviations").data (strLines (abbrContent g d)) =
      (if 0 < g.abbreviations.length then 1 else 0) ∧
    countLine ("## Defines").data (strLines (abbrContent g d)) =
      (if 0 < g.defines.length then 1 else 0) ∧
    (g.abbreviations = [] → g.defines = [] →
      ("## Abbreviations").data ∉ strLines (abbrContent g d) ∧
      ("## Defines").data ∉ strLines (abbrContent g d)) := by
  have hlines := abbrContent_lines g d hname hab hdf
  have hcA : countLine ("## Abbreviations").data (strLines (abbrContent g d)) =
      (if 0 < g.abbreviations.length then 1 else 0) := by
    rw [hlines]
    rw [countLine_cons_ne _ _ _ (ne_of_second _ _ ' ' '#' (by rfl) (by rfl) (by decide))]
    rw [countLine_cons_ne _ _ _ (by decide)]
    rw [countLine_cons_ne _ _ _ (ne_of_first _ _ '*' '#' (by rfl) (by rfl) (by decide))]
    rw [countLine_cons_ne _ _ _ (by decide)]
    rw [countLine_cons_ne _ _ _ (by decide)]
    rw [countLine_cons_ne _ _ _ (by decide)]
    rw [countLine_cons_ne _ _ _ (by decide)]
    rw [countLine_cons_ne _ _ _ (by decide)]
    rw [countLine_append, countLine_append, countLine_append]
    rw [(countLine_eq_zero_iff _ _).mpr hdA]
    rw [countLine_secLines_self _ _
      (fun p hp => ne_of_first _ _ ' ' '#' (by rfl) (by rfl) (by decide)) (by decide)]
    rw [countLine_secLines_other _ _ _
      (fun p hp => ne_of_first _ _ ' ' '#' (by rfl) (by rfl) (by decide)) (by decide)
      (by decide)]
    rw [countLine_cons_ne _ _ _ (by decide)]
    simp [countLine]
  have hcD : countLine ("## Defines").data (strLines (abbrContent g d)) =
      (if 0 < g.defines.length then 1 else 0) := by
    rw [hlines]
    rw [countLine_cons_ne _ _ _ (ne_of_second _ _ ' ' '#' (by rfl) (by rfl) (by decide))]
    rw [countLine_cons_ne _ _ _ (by decide)]
    rw [countLine_cons_ne _ _ _ (ne_of_first _ _ '*' '#' (by rfl) (by rfl) (by decide))]
    rw [countLine_cons_ne _ _ _ (by decide)]
    rw [countLine_cons_ne _ _ _ (by decide)]
    rw [countLine_cons_ne _ _ _ (by decide)]
    rw [countLine_cons_ne _ _ _ (by decide)]
    rw [countLine_cons_ne _ _ _ (by decide)]
    rw [countLine_append, countLine_append, countLine_append]
    rw [(countLine_eq_zero_iff _ _).mpr hdD]
    rw [countLine_secLines_other _ _ _
      (fun p hp => ne_of_first _ _ ' ' '#' (by rfl) (by rfl) (by decide)) (by decide)
      (by decide)]
    rw [countLine_secLines_self _ _
      (fun p hp => ne_of_first _ _ ' ' '#' (by rfl) (by rfl) (by decide)) (by decide)]
    rw [countLine_cons_ne _ _ _ (by decide)]
    simp [countLine]
  refine ⟨hlines, hcA, hcD, fun hA0 hD0 => ?_⟩
  constructor
  · exact (countLine_eq_zero_iff _ _).mp (by rw [hcA, hA0]; rfl)
  · exact (countLine_eq_zero_iff _ _).mp (by rw [hcD, hD0]; rfl)

theorem abbr_def_subsections_witness :
    countLine ("## Abbreviations").data
      (strLines (abbrContent ⟨"Abbreviations and Definitions", "hello",
        ["docs"], [("KISS", "Keep It Simple, Stupid")],
        [("CMake", "Crossplatform build system")]⟩ ⟨2026, 10, 12⟩)) = 1 ∧
    countLine ("## Defines").data
      (strLines (abbrContent ⟨"Abbreviations and Definitions", "hello",
        ["docs"], [("KISS", "Keep It Simple, Stupid")],
        [("CMake", "Crossplatform build system")]⟩ ⟨2026, 10, 12⟩)) = 1 := by
  have h := abbr_def_subsections ⟨"Abbreviations and Definitions", "hello",
    ["docs"], [("KISS", "Keep It Simple, Stupid")],
    [("CMake", "Crossplatform build system")]⟩ ⟨2026, 10, 12⟩
    (by decide) (by decide) (by decide) (by decide) (by decide)
  refine ⟨?_, ?_⟩
  · rw [h.2.1]
    rfl
  · rw [h.2.2.1]
    rfl

end ArchDoc
